import Mathlib

/-!
Verification development for the github-dependents-scraper crawler
(src/index.ts). The TypeScript source is shallowly embedded: the
persisted JSON file is modelled as a `List Dependent`, a rendered
listing page as a `PageModel` (container presence, child count, row
texts, pagination controls), and the puppeteer browser as a function
from URLs to pages. Thrown JS exceptions become `Except`/`Option`
results, and the crawl loop carries explicit fuel since the source
loops until the listing is exhausted.
-/

namespace Scraper

deriving instance DecidableEq for Except

/-- The `Dependent` interface of src/index.ts: owner, repo, star and
fork counts, and the optional link to the listing page that precedes
the page the record was extracted from (`null` modelled as `none`). -/
structure Dependent where
  owner : String
  repo : String
  stars : Nat
  forks : Nat
  previousGithubDependentsPageUrl : Option String
deriving DecidableEq

/-! ## JS character classes and regex pieces

The row pattern of `parseDependents` is
`(\S+\s\/)(\s+\S+)\s+((?:\d+,?)+)(\s+)((?:\d+,?)+)`, executed with
JavaScript `exec` semantics: leftmost match position, and at a given
position greedy quantifiers with backtracking, each quantified piece
trying its longest consumption first. We embed this by enumerating,
for each piece, its candidate (consumed, rest) splits in exactly the
backtracking order, and taking the first full match. -/

/-- JS `\s` restricted to the ASCII whitespace characters (space, tab,
newline, carriage return, vertical tab, form feed); the row texts the
scraper handles contain only these. -/
def isSpaceJS (c : Char) : Bool :=
  c == ' ' || c == '\t' || c == '\n' || c == '\r' || c.toNat == 11 || c.toNat == 12

/-- JS `\w`: ASCII letters, digits, underscore. -/
def isWordChar (c : Char) : Bool :=
  c.isAlpha || c.isDigit || c == '_'

/-- JS line terminators, which `.` does not match. -/
def isLineTerm (c : Char) : Bool :=
  c == '\n' || c == '\r' || c.toNat == 8232 || c.toNat == 8233

/-- All splits produced by a greedy `p+` at the front of `cs`, longest
prefix first (the backtracking order of a greedy one-or-more). Empty
when the first character does not satisfy `p`. -/
def plusSplits (p : Char → Bool) (cs : List Char) : List (List Char × List Char) :=
  let n := (cs.takeWhile p).length
  (List.range n).map (fun k => (cs.take (n - k), cs.drop (n - k)))

/-- Candidate splits of capture group 1, `\S+\s\/`: a greedy non-space
run, one whitespace character, then a literal slash. -/
def g1Cands (cs : List Char) : List (List Char × List Char) :=
  (plusSplits (fun c => !isSpaceJS c) cs).filterMap (fun pr =>
    match pr with
    | (a, s :: '/' :: r) => if isSpaceJS s then some (a ++ [s, '/'], r) else none
    | _ => none)

/-- Candidate splits of capture group 2, `\s+\S+`. -/
def g2Cands (cs : List Char) : List (List Char × List Char) :=
  (plusSplits isSpaceJS cs).flatMap (fun pr =>
    (plusSplits (fun c => !isSpaceJS c) pr.2).map (fun q => (pr.1 ++ q.1, q.2)))

/-- Candidate splits of one `\d+,?` element: greedy digit run, then
the optional comma preferred present. -/
def eCands (cs : List Char) : List (List Char × List Char) :=
  (plusSplits Char.isDigit cs).flatMap (fun pr =>
    match pr with
    | (d, ',' :: r) => [(d ++ [','], r), (d, ',' :: r)]
    | (d, r) => [(d, r)])

/-- Candidate splits of `(?:\d+,?)+` in backtracking order: more
iterations are preferred. Each element consumes at least one
character, so fuel equal to the input length is never exhausted. -/
def numCands : Nat → List Char → List (List Char × List Char)
  | 0, _ => []
  | Nat.succ fuel, cs =>
    (eCands cs).flatMap (fun pr =>
      ((numCands fuel pr.2).map (fun q => (pr.1 ++ q.1, q.2))) ++ [pr])

/-- Candidate splits of `(?:\d+,?)+` at the front of `cs`. -/
def numSplits (cs : List Char) : List (List Char × List Char) :=
  numCands cs.length cs

/-- Attempt the full row pattern anchored at the front of `cs`,
returning the five capture groups of the first (backtracking-order)
match. Group 4 is the whitespace between the star and fork counts. -/
def matchAt (cs : List Char) :
    Option (List Char × List Char × List Char × List Char × List Char) :=
  (g1Cands cs).findSome? (fun p1 =>
    (g2Cands p1.2).findSome? (fun p2 =>
      (plusSplits isSpaceJS p2.2).findSome? (fun p3 =>
        (numSplits p3.2).findSome? (fun p4 =>
          (plusSplits isSpaceJS p4.2).findSome? (fun p5 =>
            (numSplits p5.2).findSome? (fun p6 =>
              some (p1.1, p2.1, p4.1, p5.1, p6.1)))))))

/-- JS `RegExp.exec`: try each start position left to right and return
the groups of the first position that matches. -/
def execFrom : List Char → Option (List Char × List Char × List Char × List Char × List Char)
  | [] => none
  | c :: rest =>
    match matchAt (c :: rest) with
    | some r => some r
    | none => execFrom rest

/-- JS `parseInt` on the all-digit strings produced by the row pattern
after comma removal: the leading digit run read as a decimal number. -/
def jsParseInt (cs : List Char) : Nat :=
  (cs.takeWhile Char.isDigit).foldl (fun acc c => acc * 10 + (c.toNat - 48)) 0

/-- `replace(/\s\//g, "")`: delete every (whitespace, slash) pair,
scanning left to right. -/
def stripSpaceSlash : List Char → List Char
  | [] => []
  | [a] => [a]
  | a :: b :: rest =>
    if isSpaceJS a && b == '/' then stripSpaceSlash rest
    else a :: stripSpaceSlash (b :: rest)

/-- The per-row body of `parseDependents`: run the regex on the row
text; on no match the source indexes into `null`, the thrown error is
caught, and the row yields nothing. On a match it builds the record
from the groups: owner with `\s\/` occurrences removed, repo with all
whitespace removed, stars and forks parsed after comma removal, and a
`null` backward link (stamped later by the crawl loop). -/
def rowParse (text : String) : Option Dependent :=
  match execFrom text.data with
  | none => none
  | some (g1, g2, g3, _, g5) =>
    some { owner := String.mk (stripSpaceSlash g1)
           repo := String.mk (g2.filter (fun c => !isSpaceJS c))
           stars := jsParseInt (g3.filter (fun c => c != ','))
           forks := jsParseInt (g5.filter (fun c => c != ','))
           previousGithubDependentsPageUrl := none }

/-! ## Rendered listing pages -/

/-- A pagination control as far as the source inspects it: its
`disabled` attribute and its `href` attribute (`none` when absent). -/
structure Anchor where
  disabled : Bool
  href : Option String
deriving DecidableEq

/-- A child of the paginate container: an `a` element or a `button`. -/
inductive PagCtrl where
  | anchor (a : Anchor)
  | button (b : Anchor)
deriving DecidableEq

/-- A rendered listing page as the source queries it: whether the
`#dependents > div.Box` container is present, its child element count,
the text content of each 1-based child, and the children of the
paginate container in document order. -/
structure PageModel where
  hasBox : Bool
  childCount : Nat
  rowText : Nat → String
  children : List PagCtrl

/-- Selector `a:nth-child(n+1)` inside the paginate container: the
child at index `n`, provided it is an anchor. -/
def selAnchorNth (p : PageModel) (n : Nat) : Option Anchor :=
  match p.children.get? n with
  | some (PagCtrl.anchor a) => some a
  | _ => none

/-- Selector `button` inside the paginate container: the first button
child. -/
def selFirstButton (p : PageModel) : Option Anchor :=
  p.children.findSome? (fun c =>
    match c with
    | PagCtrl.button b => some b
    | _ => none)

/-- Selector `a` inside the paginate container: the first anchor
child. -/
def selFirstAnchor (p : PageModel) : Option Anchor :=
  p.children.findSome? (fun c =>
    match c with
    | PagCtrl.anchor a => some a
    | _ => none)

/-- The `page.evaluate` body shared by both navigation lookups: a
control whose `disabled` attribute is set yields `null` (boundary
reached); otherwise its `href` attribute is returned. -/
def evalAnchor (a : Anchor) : Option String :=
  if a.disabled then none else a.href

/-! ## Page extractor -/

/-- The row loop of `parseDependents`, iterating the 1-based child
indices `i, i+1, ...` for `n` steps (the source runs
`for (index = 2; index <= numberOfDependents; index++)`, i.e.
`numberOfDependents - 1` steps from index 2). Returns the extracted
records in page order together with the indices of the rows whose
text failed the pattern, which the source reports on the error
channel (`console.error`) and skips. -/
def parseRowsGo (texts : Nat → String) : Nat → Nat → List Dependent × List Nat
  | 0, _ => ([], [])
  | Nat.succ n, i =>
    let rest := parseRowsGo texts n (i + 1)
    match rowParse (texts i) with
    | some d => (d :: rest.1, rest.2)
    | none => (rest.1, i :: rest.2)

/-- `parseDependents`: fails (the source returns `undefined` after the
caught container error) when the entries container is absent;
otherwise extracts the data rows, child indices 2 through
`childCount`, skipping the header child at index 1. -/
def parseDependents (p : PageModel) : Option (List Dependent) :=
  if p.hasBox then some (parseRowsGo p.rowText (p.childCount + 1 - 2) 2).1 else none

/-! ## Pagination navigator -/

/-- `getPreviousDependentsPageUrl`: look for `a:nth-child(1)`; on
timeout fall back to `button`; if neither exists throw. A found
control that is disabled yields `ok none` (first page). -/
def getPreviousDependentsPageUrl (p : PageModel) : Except String (Option String) :=
  match selAnchorNth p 0 with
  | some a => Except.ok (evalAnchor a)
  | none =>
    match selFirstButton p with
    | some b => Except.ok (evalAnchor b)
    | none => Except.error "Unable to find Previous button to go to previous dependents page"

/-- `getNextDependentsPageUrl`: look for `a:nth-child(2)`; on timeout,
if a previous page URL exists this is the last page (`ok none`);
otherwise fall back to the sole `a` control with the disabled check.
A failure of the inner lookups (including a thrown previous-lookup)
becomes the next-direction error. -/
def getNextDependentsPageUrl (p : PageModel) : Except String (Option String) :=
  match selAnchorNth p 1 with
  | some a => Except.ok (evalAnchor a)
  | none =>
    match getPreviousDependentsPageUrl p with
    | Except.ok (some _) => Except.ok none
    | Except.ok none =>
      match selFirstAnchor p with
      | some a => Except.ok (evalAnchor a)
      | none => Except.error "Unable to find Next button to go to next dependents page"
    | Except.error _ => Except.error "Unable to find Next button to go to next dependents page"

/-! ## Deduplicating store

The persisted JSON file is modelled by its parsed contents, a
`List Dependent`. -/

/-- `getDependentsFromFile`: read and deserialize the store file. -/
def getDependentsFromFile (store : List Dependent) : List Dependent := store

/-- `saveDependentsToFile`: with the overwrite flag set, write exactly
the batch; otherwise load the existing records and write their
concatenation with the batch. The whole file is rewritten either
way. -/
def saveDependentsToFile (store batch : List Dependent)
    (overwriteDependentsFile : Bool) : List Dependent :=
  if overwriteDependentsFile then batch else getDependentsFromFile store ++ batch

/-- The loop of `removeDuplicateDependents`, reproducing the JS
iteration: `_parsedDependents` aliases `parsedDependents`, the
`entries()` iterator index `i` advances by one each step against the
live array, and a record found in the existing store is spliced out at
the current index. Fuel equal to the initial length bounds the
iteration count, since the loop stops once `i` reaches the (never
growing) length. -/
def dedupGo (existingDependents : List Dependent) :
    Nat → Nat → List Dependent → List Dependent
  | 0, _, a => a
  | Nat.succ fuel, i, a =>
    if h : i < a.length then
      dedupGo existingDependents fuel (i + 1)
        (if a.get ⟨i, h⟩ ∈ existingDependents then a.eraseIdx i else a)
    else a

/-- `removeDuplicateDependents`: load the persisted records and splice
out of the batch, in place while iterating, every record structurally
equal (`isDeepStrictEqual`, all fields) to a persisted one. -/
def removeDuplicateDependents (dependentsFile parsedDependents : List Dependent) :
    List Dependent :=
  dedupGo (getDependentsFromFile dependentsFile) parsedDependents.length 0 parsedDependents

/-- The store's append-with-dedup operation as the crawl loop uses it
after the first persist: dedup against the persisted records, then a
non-overwriting save. -/
def appendDeduped (store batch : List Dependent) : List Dependent :=
  saveDependentsToFile store (removeDuplicateDependents store batch) false

/-! ## Crawl controller -/

/-- One recorded call to `saveDependentsToFile` during a crawl run:
the value of the overwrite flag at that call and the batch written. -/
structure Persist where
  overwrite : Bool
  batch : List Dependent
deriving DecidableEq

/-- How a crawl run ended: the loop broke out normally on "no next
page" (`done`), an error was thrown and caught by the outer handler
(`aborted`), or the model's fuel ran out (`fuelOut`, a model artifact:
the source loops until the listing ends). -/
inductive CrawlOutcome where
  | done
  | aborted
  | fuelOut
deriving DecidableEq

/-- The stamping step of the crawl loop: when the previous-page URL is
neither `null` nor `undefined`, every record of the deduped batch has
its `previousGithubDependentsPageUrl` field set to it. -/
def stampBatch : Option String → List Dependent → List Dependent
  | some u, batch => batch.map (fun d => { d with previousGithubDependentsPageUrl := some u })
  | none, batch => batch

/-- The effect of one recorded persist on the store file, i.e.
`saveDependentsToFile` applied to its recorded arguments. -/
def applyPersist (store : List Dependent) (e : Persist) : List Dependent :=
  saveDependentsToFile store e.batch e.overwrite

/-- `startCrawl`: the page loop. Each iteration parses the current
page (an undefined result aborts), dedups the batch against the store
file, stamps the batch with the current page's previous-page link,
saves (after which the local overwrite flag is cleared to false), and
asks for the next page: `null` breaks out as `done`, an error aborts,
and a URL navigates there and repeats. Returns the outcome, the final
store file, and the list of persists performed in order. -/
def startCrawl (nav : String → PageModel) :
    Nat → PageModel → List Dependent → Bool → CrawlOutcome × List Dependent × List Persist
  | 0, _, store, _ => (CrawlOutcome.fuelOut, store, [])
  | Nat.succ fuel, p, store, ow =>
    match parseDependents p with
    | none => (CrawlOutcome.aborted, store, [])
    | some parsedDependents =>
      let deduped := removeDuplicateDependents store parsedDependents
      match getPreviousDependentsPageUrl p with
      | Except.error _ => (CrawlOutcome.aborted, store, [])
      | Except.ok previousPageUrl =>
        let batch := stampBatch previousPageUrl deduped
        let store' := saveDependentsToFile store batch ow
        match getNextDependentsPageUrl p with
        | Except.error _ => (CrawlOutcome.aborted, store', [⟨ow, batch⟩])
        | Except.ok none => (CrawlOutcome.done, store', [⟨ow, batch⟩])
        | Except.ok (some nextPageUrl) =>
          let r := startCrawl nav fuel (nav nextPageUrl) store' false
          (r.1, r.2.1, ⟨ow, batch⟩ :: r.2.2)

/-- How a resume invocation ended: the store file was empty
(`resumeError`, the thrown "appears to be empty" error), the linked
page already had no next page (`doneEarly`, the source exits with
status 0), the next-page lookup failed (`navError`), or the page loop
was entered (`ran`, carrying the loop's result). -/
inductive ResumeOutcome where
  | resumeError
  | doneEarly
  | navError
  | ran (r : CrawlOutcome × List Dependent × List Persist)
deriving DecidableEq

/-- `resumeCrawlFromFile`: read the store file and take its last
record (throwing when there is none). If its backward link is present,
navigate there, look up that page's next-page URL, and — unless the
crawl is already complete or the lookup fails — navigate one page
forward and enter the page loop with the overwrite flag false. With no
backward link the loop is entered at the fetcher's current page. -/
def resumeCrawlFromFile (nav : String → PageModel) (fuel : Nat)
    (dependentsFile : List Dependent) (page : PageModel) : ResumeOutcome :=
  match (getDependentsFromFile dependentsFile).getLast? with
  | none => ResumeOutcome.resumeError
  | some lastDependent =>
    match lastDependent.previousGithubDependentsPageUrl with
    | some prevUrl =>
      match getNextDependentsPageUrl (nav prevUrl) with
      | Except.ok none => ResumeOutcome.doneEarly
      | Except.error _ => ResumeOutcome.navError
      | Except.ok (some nextPageUrl) =>
        ResumeOutcome.ran (startCrawl nav fuel (nav nextPageUrl) dependentsFile false)
    | none => ResumeOutcome.ran (startCrawl nav fuel page dependentsFile false)

/-- `start` after argument parsing and browser launch: with the resume
flag set, resume from the store file at the still-blank page;
otherwise navigate to the listing's first page, initialize the store
file with an overwriting save of the empty batch, and enter the page
loop with the overwrite flag true. -/
def start (nav : String → PageModel) (fuel : Nat) (firstPageUrl : String)
    (blankPage : PageModel) (dependentsFile : List Dependent)
    (resumeCrawl : Bool) : ResumeOutcome :=
  if resumeCrawl then
    resumeCrawlFromFile nav fuel dependentsFile blankPage
  else
    ResumeOutcome.ran (startCrawl nav fuel (nav firstPageUrl)
      (saveDependentsToFile dependentsFile [] true) true)

/-! ## Argument parsing -/

/-- Does a string contain a substring matching `\S+\/\S+`? Since the
quantified pieces may match a single character, this holds exactly
when some slash has a non-space character on both sides. -/
def hasOwnerRepo : List Char → Bool
  | a :: b :: c :: rest =>
    (!isSpaceJS a && b == '/' && !isSpaceJS c) || hasOwnerRepo (b :: c :: rest)
  | _ => false

/-- Does a string contain a substring matching `\w+.json` — a word
character, then any character (`.` is unescaped in the source, so it
matches any non-line-terminator), then the literal letters `json`? -/
def hasWJson : List Char → Bool
  | w :: c :: rest =>
    (isWordChar w && !isLineTerm c && rest.take 4 == ['j', 's', 'o', 'n'])
      || hasWJson (c :: rest)
  | _ => false

/-- JS `Boolean` applied to a possibly-undefined string: `undefined`
is falsy and every non-empty string is truthy — including the string
"false". -/
def jsBoolean : Option String → Bool
  | none => false
  | some s => s != ""

/-- `getArgs` over `process.argv.slice(2)`: sequential validation of
the three positional arguments with the source's regex tests, then
`Boolean` conversion of the resume flag. -/
def getArgs (argv : List String) : Except String (String × String × Bool) :=
  match argv.get? 0 with
  | none => Except.error "Unable to parse Github Owner and Repo names"
  | some githubOwnerAndRepo =>
    if !hasOwnerRepo githubOwnerAndRepo.data then
      Except.error "Unable to parse Github Owner and Repo names"
    else
      match argv.get? 1 with
      | none => Except.error "Expected dependents file to have .json extension"
      | some dependentsFile =>
        if !hasWJson dependentsFile.data then
          Except.error "Expected dependents file to have .json extension"
        else
          match argv.get? 2 with
          | none => Except.ok (githubOwnerAndRepo, dependentsFile, jsBoolean none)
          | some resumeCrawl =>
            if resumeCrawl != "false" && resumeCrawl != "true" then
              Except.error "Expected resumeCrawl to be true or false"
            else
              Except.ok (githubOwnerAndRepo, dependentsFile, jsBoolean (some resumeCrawl))

/-! ## Definitions taken from the specification's words

These follow the spec text, not the source, and exist to be compared
with the source-derived definitions above. -/

/-- Modelled from the spec: `appendDeduped(batch)` as §4.3 describes
it — the concatenation of the existing sequence with the batch minus
every record structurally equal (all fields) to a persisted one. -/
def specAppendDeduped (store batch : List Dependent) : List Dependent :=
  store ++ batch.filter (fun b => !decide (b ∈ store))

/-- Modelled from the spec: "a destination file path ending in
`.json`". -/
def claimEndsInDotJson (s : String) : Bool :=
  ".json".data.isSuffixOf s.data

/-- The first validation condition as the amended claim states it:
the target argument is present and contains an `owner/repo`-shaped
substring. -/
def ownerRepoArgOk : Option String → Bool
  | none => false
  | some s => hasOwnerRepo s.data

/-- The second validation condition as the amended claim states it:
the file argument is present and contains a `\w+.json` match. -/
def fileArgOk : Option String → Bool
  | none => false
  | some s => hasWJson s.data

/-- The third validation condition: the resume argument is absent or
is one of the strings "true" and "false". -/
def resumeArgOk : Option String → Bool
  | none => true
  | some s => s == "true" || s == "false"

/-! ## Concrete records and pages used to evaluate the code -/

/-- A concrete record used to exercise the dedup loop. -/
def d1 : Dependent := ⟨"o", "r", 1, 2, none⟩

/-- First of two distinct concrete records. -/
def rA : Dependent := ⟨"o1", "r1", 1, 2, none⟩

/-- Second of two distinct concrete records. -/
def rB : Dependent := ⟨"o2", "r2", 3, 4, none⟩

/-- A listing page with two well-formed data rows and one malformed
row between them (child 1 is the header). -/
def pW : PageModel :=
  { hasBox := true
    childCount := 4
    rowText := fun i =>
      if i = 2 then "alice / repo1 1,234 56"
      else if i = 3 then "not a dependent row"
      else if i = 4 then "bob / repo2 7 8"
      else ""
    children := [] }

/-! ## Theorems -/

/-- Row-loop characterization: starting at index `i` and running `n`
iterations, the loop returns exactly the records of the rows in
`range' i n` whose text matches the pattern, in page order, and
reports exactly the indices of the rows that fail. -/
lemma parseRowsGo_eq (texts : Nat → String) :
    ∀ (n i : Nat),
      parseRowsGo texts n i =
        ((List.range' i n).filterMap (fun j => rowParse (texts j)),
         (List.range' i n).filter (fun j => (rowParse (texts j)).isNone)) := by
  intro n
  induction n with
  | zero => intro i; rfl
  | succ n ih =>
    intro i
    have hr : List.range' i (n + 1) = i :: List.range' (i + 1) n := rfl
    rw [hr]
    cases h : rowParse (texts i) with
    | none => simp [parseRowsGo, h, ih (i + 1)]
    | some d => simp [parseRowsGo, h, ih (i + 1)]

/-- C1: the claim that appendDeduped leaves the store equal to the
existing sequence concatenated with the batch minus every record
structurally equal to a persisted one fails on the code: the dedup
loop splices the array it is iterating, so the element following a
removed duplicate is never examined. With store `[d1]` and batch
`[d1, d1]` the code persists `[d1, d1]` where the claimed behavior
(`specAppendDeduped`) yields `[d1]`. -/
theorem c1_append_dedup_failing_input :
    appendDeduped [d1] [d1, d1] = [d1, d1]
      ∧ specAppendDeduped [d1] [d1, d1] = [d1]
      ∧ appendDeduped [d1] [d1, d1] ≠ specAppendDeduped [d1] [d1, d1] := by
  decide

/-- C2: dedup idempotence fails on the code: appending the batch
`[rA, rB]` to an empty store and then appending the identical batch
again persists `rB` a second time (the splice-while-iterating dedup
skips the element after the removed `rA`), so the second append is
not a no-op. -/
theorem c2_double_append_failing_input :
    appendDeduped [] [rA, rB] = [rA, rB]
      ∧ appendDeduped (appendDeduped [] [rA, rB]) [rA, rB] = [rA, rB, rB]
      ∧ appendDeduped (appendDeduped [] [rA, rB]) [rA, rB] ≠ appendDeduped [] [rA, rB] := by
  decide

/-- C8: resuming on a store that contains no records fails with the
resume error — the branch taken when reading the last record of the
file yields nothing — before any page is fetched or processed (the
result does not depend on the browser state). -/
theorem c8_resume_empty_store (nav : String → PageModel) (fuel : Nat) (page : PageModel) :
    resumeCrawlFromFile nav fuel [] page = ResumeOutcome.resumeError := rfl

/-- C4: on a page whose container is present with `childCount`
children, the extractor iterates exactly the 1-based child indices 2
through `childCount` (the `range'` of length `childCount - 1` starting
at 2, skipping the header child), returns in page order one record
per row whose text matches the pattern, and reports the index of
every row that fails, which is skipped without affecting the other
rows. -/
theorem c4_page_extractor_rows (p : PageModel) (hbox : p.hasBox = true) :
    parseDependents p
        = some ((List.range' 2 (p.childCount - 1)).filterMap (fun j => rowParse (p.rowText j)))
      ∧ (parseRowsGo p.rowText (p.childCount + 1 - 2) 2).2
        = (List.range' 2 (p.childCount - 1)).filter (fun j => (rowParse (p.rowText j)).isNone) := by
  have h21 : p.childCount + 1 - 2 = p.childCount - 1 := by omega
  refine ⟨?_, ?_⟩
  · simp [parseDependents, hbox, parseRowsGo_eq, h21]
  · simp [parseRowsGo_eq, h21]

/-- Every persist recorded after the first one of a run carries the
overwrite flag false, and the first carries the run's initial flag:
a true flag forces initial-flag true and position zero. -/
lemma startCrawl_trace_ow (nav : String → PageModel) :
    ∀ (fuel : Nat) (p : PageModel) (store : List Dependent) (ow : Bool) (k : Nat) (e : Persist),
      ((startCrawl nav fuel p store ow).2.2)[k]? = some e →
      e.overwrite = true → ow = true ∧ k = 0 := by
  intro fuel
  induction fuel with
  | zero => intro p store ow k e h _; simp [startCrawl] at h
  | succ fuel ih =>
    intro p store ow k e h hov
    cases hp : parseDependents p with
    | none => simp [startCrawl, hp] at h
    | some parsed =>
      cases hprev : getPreviousDependentsPageUrl p with
      | error m => simp [startCrawl, hp, hprev] at h
      | ok prevUrl =>
        cases hnext : getNextDependentsPageUrl p with
        | error m =>
          simp [startCrawl, hp, hprev, hnext] at h
          cases k with
          | zero =>
            simp at h
            refine ⟨?_, rfl⟩
            rw [← h] at hov
            exact hov
          | succ k => simp at h
        | ok o =>
          cases o with
          | none =>
            simp [startCrawl, hp, hprev, hnext] at h
            cases k with
            | zero =>
              simp at h
              refine ⟨?_, rfl⟩
              rw [← h] at hov
              exact hov
            | succ k => simp at h
          | some nextPageUrl =>
            simp [startCrawl, hp, hprev, hnext] at h
            cases k with
            | zero =>
              simp at h
              refine ⟨?_, rfl⟩
              rw [← h] at hov
              exact hov
            | succ k =>
              simp at h
              have := ih _ _ false k e h hov
              exact absurd this.1 (by simp)

/-- The final store file of a run is the initial store file with the
run's recorded persists applied in order. -/
lemma startCrawl_store_foldl (nav : String → PageModel) :
    ∀ (fuel : Nat) (p : PageModel) (store : List Dependent) (ow : Bool),
      (startCrawl nav fuel p store ow).2.1
        = List.foldl applyPersist store (startCrawl nav fuel p store ow).2.2 := by
  intro fuel
  induction fuel with
  | zero => intro p store ow; rfl
  | succ fuel ih =>
    intro p store ow
    cases hp : parseDependents p with
    | none => simp [startCrawl, hp]
    | some parsed =>
      cases hprev : getPreviousDependentsPageUrl p with
      | error m => simp [startCrawl, hp, hprev]
      | ok prevUrl =>
        cases hnext : getNextDependentsPageUrl p with
        | error m => simp [startCrawl, hp, hprev, hnext, applyPersist]
        | ok o =>
          cases o with
          | none => simp [startCrawl, hp, hprev, hnext, applyPersist]
          | some nextPageUrl => simp [startCrawl, hp, hprev, hnext, applyPersist, ih]

/-- Folding persists whose overwrite flags are all false only ever
appends to the store. -/
lemma foldl_applyPersist_all_false :
    ∀ (t : List Persist) (s : List Dependent),
      (∀ e ∈ t, e.overwrite = false) →
      ∃ u, List.foldl applyPersist s t = s ++ u := by
  intro t
  induction t with
  | nil => intro s _; exact ⟨[], by simp⟩
  | cons e t ih =>
    intro s h
    have he : e.overwrite = false := h e (by simp)
    obtain ⟨u, hu⟩ := ih (s ++ e.batch) (fun x hx => h x (by simp [hx]))
    refine ⟨e.batch ++ u, ?_⟩
    have happ : applyPersist s e = s ++ e.batch := by
      simp [applyPersist, saveDependentsToFile, getDependentsFromFile, he]
    rw [List.foldl_cons, happ, hu, List.append_assoc]

/-- C7: persistence is per page: whatever way a run ends (including an
abort on extraction, navigation or storage failure), the final store
file is the initial file with the recorded persists applied, and for
every point after the first persist the store reached at that point
survives as a prefix of the final file — an abort never discards or
rewrites pages persisted before it. -/
theorem c7_abort_preserves_persisted (nav : String → PageModel) (fuel : Nat)
    (p : PageModel) (store : List Dependent) (ow : Bool) (k : Nat) (hk : 1 ≤ k) :
    (startCrawl nav fuel p store ow).2.1
        = List.foldl applyPersist store ((startCrawl nav fuel p store ow).2.2)
      ∧ ∃ u,
        (startCrawl nav fuel p store ow).2.1
          = List.foldl applyPersist store (((startCrawl nav fuel p store ow).2.2).take k) ++ u := by
  refine ⟨startCrawl_store_foldl nav fuel p store ow, ?_⟩
  have hflags : ∀ e ∈ ((startCrawl nav fuel p store ow).2.2).drop k, e.overwrite = false := by
    intro e he
    rcases List.mem_iff_getElem?.mp he with ⟨j, hj⟩
    rw [List.getElem?_drop] at hj
    cases hov : e.overwrite with
    | false => rfl
    | true =>
      have hkj := startCrawl_trace_ow nav fuel p store ow (k + j) e hj hov
      omega
  obtain ⟨u, hu⟩ := foldl_applyPersist_all_false _
    (List.foldl applyPersist store (((startCrawl nav fuel p store ow).2.2).take k)) hflags
  refine ⟨u, ?_⟩
  rw [startCrawl_store_foldl nav fuel p store ow]
  calc List.foldl applyPersist store ((startCrawl nav fuel p store ow).2.2)
      = List.foldl applyPersist store
          (((startCrawl nav fuel p store ow).2.2).take k
            ++ ((startCrawl nav fuel p store ow).2.2).drop k) := by
        rw [List.take_append_drop]
    _ = List.foldl applyPersist
          (List.foldl applyPersist store (((startCrawl nav fuel p store ow).2.2).take k))
          (((startCrawl nav fuel p store ow).2.2).drop k) := by
        rw [List.foldl_append]
    _ = List.foldl applyPersist store (((startCrawl nav fuel p store ow).2.2).take k) ++ u := hu

/-- C6: the overwrite flag is controller-local and invariant-governed:
in any page loop a recorded persist with the flag true can only be the
first persist of a run whose initial flag was true; through `start`,
the initial flag is true exactly on a fresh (non-resumed) run, so a
resumed run never records a true flag; and a persist with the flag
false appends to the store file rather than wiping it. -/
theorem c6_overwrite_flag_invariant :
    (∀ (nav : String → PageModel) (fuel : Nat) (p : PageModel) (store : List Dependent)
        (ow : Bool) (k : Nat) (e : Persist),
        ((startCrawl nav fuel p store ow).2.2)[k]? = some e →
        e.overwrite = true → ow = true ∧ k = 0)
      ∧ (∀ (nav : String → PageModel) (fuel : Nat) (firstPageUrl : String)
          (blankPage : PageModel) (store : List Dependent) (resumeCrawl : Bool)
          (r : CrawlOutcome × List Dependent × List Persist) (k : Nat) (e : Persist),
          start nav fuel firstPageUrl blankPage store resumeCrawl = ResumeOutcome.ran r →
          r.2.2[k]? = some e → e.overwrite = true → resumeCrawl = false ∧ k = 0)
      ∧ (∀ (store batch : List Dependent), saveDependentsToFile store batch false = store ++ batch) := by
  refine ⟨fun nav fuel p store ow => startCrawl_trace_ow nav fuel p store ow, ?_, fun store batch => rfl⟩
  intro nav fuel firstPageUrl blankPage store resumeCrawl r k e hr hk hov
  cases resumeCrawl with
  | false =>
    simp [start] at hr
    rw [← hr] at hk
    have := startCrawl_trace_ow nav fuel (nav firstPageUrl)
      (saveDependentsToFile store [] true) true k e hk hov
    exact ⟨rfl, this.2⟩
  | true =>
    cases hlast : (getDependentsFromFile store).getLast? with
    | none => simp [start, resumeCrawlFromFile, hlast] at hr
    | some lastDependent =>
      cases hlink : lastDependent.previousGithubDependentsPageUrl with
      | none =>
        simp [start, resumeCrawlFromFile, hlast, hlink] at hr
        rw [← hr] at hk
        have := startCrawl_trace_ow nav fuel blankPage store false k e hk hov
        exact absurd this.1 (by simp)
      | some prevUrl =>
        cases hnx : getNextDependentsPageUrl (nav prevUrl) with
        | error m => simp [start, resumeCrawlFromFile, hlast, hlink, hnx] at hr
        | ok o =>
          cases o with
          | none => simp [start, resumeCrawlFromFile, hlast, hlink, hnx] at hr
          | some nextPageUrl =>
            simp [start, resumeCrawlFromFile, hlast, hlink, hnx] at hr
            rw [← hr] at hk
            have := startCrawl_trace_ow nav fuel (nav nextPageUrl) store false k e hk hov
            exact absurd this.1 (by simp)

/-- C5: boundary versus failure in the navigator: a found but disabled
previous control yields the success "no previous page"; an absent
next control with an existing previous link yields the success "no
next page", on which the page loop terminates as `done`, not
`aborted`; and the next lookup errors only when it could determine
neither case: no second anchor, and either the previous lookup itself
throws or there is no pagination anchor at all to fall back on. -/
theorem c5_navigator_boundary_cases :
    (∀ (p : PageModel) (a : Anchor),
        selAnchorNth p 0 = some a → a.disabled = true →
        getPreviousDependentsPageUrl p = Except.ok none)
      ∧ (∀ (p : PageModel) (u : String),
          selAnchorNth p 1 = none →
          getPreviousDependentsPageUrl p = Except.ok (some u) →
          getNextDependentsPageUrl p = Except.ok none)
      ∧ (∀ (nav : String → PageModel) (fuel : Nat) (p : PageModel)
          (store : List Dependent) (ow : Bool) (l : List Dependent) (v : Option String),
          parseDependents p = some l →
          getPreviousDependentsPageUrl p = Except.ok v →
          getNextDependentsPageUrl p = Except.ok none →
          (startCrawl nav (fuel + 1) p store ow).1 = CrawlOutcome.done)
      ∧ (∀ (p : PageModel) (m : String),
          getNextDependentsPageUrl p = Except.error m →
          selAnchorNth p 1 = none
            ∧ ((∃ m', getPreviousDependentsPageUrl p = Except.error m')
                ∨ (getPreviousDependentsPageUrl p = Except.ok none ∧ selFirstAnchor p = none))) := by
  refine ⟨?_, ?_, ?_, ?_⟩
  · intro p a h1 h2
    simp [getPreviousDependentsPageUrl, h1, evalAnchor, h2]
  · intro p u h1 h2
    simp [getNextDependentsPageUrl, h1, h2]
  · intro nav fuel p store ow l v hp hprev hnext
    simp [startCrawl, hp, hprev, hnext]
  · intro p m h
    unfold getNextDependentsPageUrl at h
    cases hsel : selAnchorNth p 1 with
    | some a => rw [hsel] at h; simp at h
    | none =>
      rw [hsel] at h
      refine ⟨rfl, ?_⟩
      cases hprev : getPreviousDependentsPageUrl p with
      | error m' => exact Or.inl ⟨m', rfl⟩
      | ok o =>
        rw [hprev] at h
        cases o with
        | some u => simp at h
        | none =>
          cases hfa : selFirstAnchor p with
          | some a => rw [hfa] at h; simp at h
          | none => exact Or.inr ⟨rfl, rfl⟩

/-- Witness for C4 on the concrete page `pW`: rows 2 and 4 are
extracted in order (with the thousands separator parsed), and the
malformed row 3 is skipped and reported. -/
theorem c4_witness :
    (parseDependents pW
        = some ((List.range' 2 (pW.childCount - 1)).filterMap (fun j => rowParse (pW.rowText j)))
      ∧ (parseRowsGo pW.rowText (pW.childCount + 1 - 2) 2).2
        = (List.range' 2 (pW.childCount - 1)).filter (fun j => (rowParse (pW.rowText j)).isNone))
    ∧ (List.range' 2 (pW.childCount - 1)).filterMap (fun j => rowParse (pW.rowText j))
        = [⟨"alice", "repo1", 1234, 56, none⟩, ⟨"bob", "repo2", 7, 8, none⟩]
    ∧ (List.range' 2 (pW.childCount - 1)).filter (fun j => (rowParse (pW.rowText j)).isNone)
        = [3] :=
  ⟨c4_page_extractor_rows pW rfl, by decide, by decide⟩

/-- A page whose previous control is present but disabled. -/
def pPrevDisabled : PageModel :=
  ⟨true, 0, fun _ => "", [PagCtrl.anchor ⟨true, none⟩]⟩

/-- A last listing page: a single enabled previous anchor and no
second anchor. -/
def pLast : PageModel :=
  ⟨true, 0, fun _ => "", [PagCtrl.anchor ⟨false, some "prevX"⟩]⟩

/-- A page with no pagination controls at all. -/
def pNoCtrls : PageModel := ⟨true, 0, fun _ => "", []⟩

/-- A browser that renders `pLast` for every URL. -/
def navLast : String → PageModel := fun _ => pLast

/-- Witness for C5: on `pPrevDisabled` the previous lookup succeeds
with "no previous page"; on `pLast` (next control absent, previous
link present) the next lookup succeeds with "no next page" and a
one-page crawl ends `done`; on `pNoCtrls` the next lookup's error
coincides with neither case being determinable. -/
theorem c5_witness :
    getPreviousDependentsPageUrl pPrevDisabled = Except.ok none
      ∧ getNextDependentsPageUrl pLast = Except.ok none
      ∧ (startCrawl navLast 1 pLast [] false).1 = CrawlOutcome.done
      ∧ (selAnchorNth pNoCtrls 1 = none
          ∧ ((∃ m', getPreviousDependentsPageUrl pNoCtrls = Except.error m')
              ∨ (getPreviousDependentsPageUrl pNoCtrls = Except.ok none
                  ∧ selFirstAnchor pNoCtrls = none))) :=
  ⟨c5_navigator_boundary_cases.1 pPrevDisabled ⟨true, none⟩ (by decide) rfl,
   c5_navigator_boundary_cases.2.1 pLast "prevX" (by decide) (by decide),
   c5_navigator_boundary_cases.2.2.1 navLast 0 pLast [] false [] (some "prevX")
     (by decide) (by decide) (by decide),
   c5_navigator_boundary_cases.2.2.2 pNoCtrls
     "Unable to find Next button to go to next dependents page" (by decide)⟩

/-- First page of a two-step fresh crawl: one data row, disabled
previous control, next link to "U2". -/
def p1W : PageModel :=
  { hasBox := true
    childCount := 2
    rowText := fun i => if i = 2 then "alice / repo1 1,234 56" else ""
    children := [PagCtrl.anchor ⟨true, none⟩, PagCtrl.anchor ⟨false, some "U2"⟩] }

/-- Second page of the two-step crawl: no rows, enabled previous
anchor as sole control, so it is the last page. -/
def p2W : PageModel :=
  ⟨true, 0, fun _ => "", [PagCtrl.anchor ⟨false, some "P1"⟩]⟩

/-- A browser rendering `p2W` for every URL. -/
def navW : String → PageModel := fun _ => p2W

/-- A page whose entries container is missing, as on a rate-limit
page: extraction yields no result and the loop aborts. -/
def pRateLimited : PageModel := ⟨false, 0, fun _ => "", []⟩

/-- A browser rendering the rate-limit page for every URL, so the
second loop iteration aborts. -/
def navAbort : String → PageModel := fun _ => pRateLimited

/-- Witness for C6: the two-page fresh run `startCrawl navW 2 p1W []
true` records a first persist with the overwrite flag true, and the
invariant applied to it yields initial-flag true at position zero. -/
theorem c6_witness :
    ((startCrawl navW 2 p1W [] true).2.2)[0]?
        = some ⟨true, [⟨"alice", "repo1", 1234, 56, none⟩]⟩
      ∧ (true = true ∧ (0 : Nat) = 0) :=
  ⟨by decide,
   c6_overwrite_flag_invariant.1 navW 2 p1W [] true 0
     ⟨true, [⟨"alice", "repo1", 1234, 56, none⟩]⟩ (by decide) rfl⟩

/-- Witness for C7 on a run that aborts on its second page: the store
persisted for the completed first page survives as a prefix of the
final store file. -/
theorem c7_witness :
    (startCrawl navAbort 2 p1W [] true).2.1
        = List.foldl applyPersist [] ((startCrawl navAbort 2 p1W [] true).2.2)
      ∧ ∃ u,
        (startCrawl navAbort 2 p1W [] true).2.1
          = List.foldl applyPersist [] (((startCrawl navAbort 2 p1W [] true).2.2).take 1) ++ u :=
  c7_abort_preserves_persisted navAbort 2 p1W [] true 1 (by decide)

/-- A record of the last completed page `pageQ`, as persisted: its
backward link points at the page `P` before `pageQ`. -/
def r1 : Dependent := ⟨"alice", "repo1", 1234, 56, some "P"⟩

/-- Second persisted record of `pageQ`. -/
def r2 : Dependent := ⟨"carol", "repo2", 6, 7, some "P"⟩

/-- The page before the last completed one: disabled previous control
and a next link to "Q". -/
def pageP : PageModel :=
  ⟨true, 0, fun _ => "", [PagCtrl.anchor ⟨true, none⟩, PagCtrl.anchor ⟨false, some "Q"⟩]⟩

/-- The last completed page, re-rendered on resume: its two rows are
exactly the ones already persisted, its previous link is "P", and it
is the final page. -/
def pageQ : PageModel :=
  { hasBox := true
    childCount := 3
    rowText := fun i =>
      if i = 2 then "alice / repo1 1,234 56"
      else if i = 3 then "carol / repo2 6 7"
      else ""
    children := [PagCtrl.anchor ⟨false, some "P"⟩] }

/-- The browser's initial blank page (no container, no controls). -/
def blankPage : PageModel := ⟨false, 0, fun _ => "", []⟩

/-- The browser for the resume scenario. -/
def navR : String → PageModel :=
  fun u => if u = "P" then pageP else if u = "Q" then pageQ else blankPage

/-- C3: the claim's navigation half holds on this run — resume with
last backward link "P" positions at `pageP`, obtains its next link
"Q" and re-enters the loop at `pageQ`, the page following "P" — but
its no-re-persist half fails: the loop dedups the freshly extracted
rows (whose backward links are still `null`) against the store before
stamping them with "P", so no structural match is found and both
already-persisted records of `pageQ` are appended to the store a
second time. -/
theorem c3_resume_repersists_failing_input :
    ([r1, r2].getLast? = some r2
        ∧ r2.previousGithubDependentsPageUrl = some "P"
        ∧ getNextDependentsPageUrl (navR "P") = Except.ok (some "Q"))
      ∧ resumeCrawlFromFile navR 1 [r1, r2] blankPage
          = ResumeOutcome.ran (CrawlOutcome.done, [r1, r2] ++ [r1, r2], [⟨false, [r1, r2]⟩])
      ∧ r1 ∈ [r1, r2] := by
  decide

/-- C9, counterexample: validation accepts the destination file
argument "ab_json" (the source's `\w+.json` test treats the dot as a
wildcard and is unanchored), although it does not end in ".json", so
"error if and only if ... the destination file path does not end in
.json ..." fails. -/
theorem c9_counterexample :
    (getArgs ["a/b", "ab_json"]).isOk = true
      ∧ claimEndsInDotJson "ab_json" = false := by
  decide

/-- C9, amended: validation errors exactly when the target argument is
absent or lacks an `owner/repo`-shaped substring (non-space, slash,
non-space), or the file argument is absent or lacks a substring of a
word character, any non-line-terminator character, then "json" (a
weaker test than ending in ".json"), or the resume argument is
present and differs from both "true" and "false". -/
theorem c9_amended_validation (argv : List String) :
    (getArgs argv).isOk
      = (ownerRepoArgOk (argv.get? 0) && fileArgOk (argv.get? 1)
          && resumeArgOk (argv.get? 2)) := by
  unfold getArgs ownerRepoArgOk fileArgOk resumeArgOk
  cases h0 : argv.get? 0 with
  | none => rfl
  | some s0 =>
    cases ho : hasOwnerRepo s0.data with
    | false => simp [ho, Except.isOk, Except.toBool]
    | true =>
      simp only [ho, Bool.not_true, Bool.false_eq_true, if_false, Bool.true_and]
      cases h1 : argv.get? 1 with
      | none => rfl
      | some s1 =>
        cases hw : hasWJson s1.data with
        | false => simp [hw, Except.isOk, Except.toBool]
        | true =>
          simp only [hw, Bool.not_true, Bool.false_eq_true, if_false, Bool.true_and]
          cases h2 : argv.get? 2 with
          | none => rfl
          | some s2 =>
            by_cases hf : s2 = "false"
            · simp [hf, Except.isOk, Except.toBool]
            · by_cases ht : s2 = "true"
              · simp [ht, Except.isOk, Except.toBool]
              · simp [hf, ht, Except.isOk, Except.toBool]

/-- C10: whenever argument parsing succeeds, the returned resume flag
equals presence of the third argument: `Boolean` maps every non-empty
string — including "false" — to true, and only an omitted third
argument yields false. -/
theorem c10_resume_flag_is_presence (argv : List String) (o f : String) (b : Bool)
    (h : getArgs argv = Except.ok (o, f, b)) :
    b = (argv.get? 2).isSome := by
  cases argv with
  | nil => simp [getArgs] at h
  | cons a0 t0 =>
    cases t0 with
    | nil =>
      simp only [getArgs, List.get?] at h
      split at h <;> simp at h
    | cons a1 t1 =>
      cases t1 with
      | nil =>
        simp only [getArgs, List.get?] at h
        split at h
        · simp at h
        · split at h
          · simp at h
          · simp only [Except.ok.injEq, Prod.mk.injEq] at h
            rw [← h.2.2]
            rfl
      | cons a2 t2 =>
        simp only [getArgs, List.get?] at h
        split at h
        · simp at h
        · split at h
          · simp at h
          · split at h
            · simp at h
            · rename_i hcond
              simp only [Except.ok.injEq, Prod.mk.injEq] at h
              rw [← h.2.2]
              have ha2 : a2 = "false" ∨ a2 = "true" := by
                by_contra hne
                push_neg at hne
                exact hcond (by simp [hne.1, hne.2])
              simp only [List.get?, Option.isSome_some, jsBoolean]
              rcases ha2 with ha2 | ha2 <;> subst ha2 <;> decide

/-- Witness for C10: the invocation with third argument "false" parses
successfully and its resume flag is true. -/
theorem c10_witness :
    (true : Bool) = ((["a/b", "x.json", "false"] : List String).get? 2).isSome :=
  c10_resume_flag_is_presence ["a/b", "x.json", "false"] "a/b" "x.json" true (by decide)

end Scraper
